import Mathlib

/-!
Verification development for the mcp-gen repository: a shallow embedding of
the schema/metadata extraction front-end (src/parser.ts) and of the decision
logic of the protocol compiler back-end (src/generator.ts), together with
proofs of the specified properties.

Conventions of the embedding:
* JavaScript strings are Lean `String`s; the handful of regular expressions
  used by the source are implemented as explicit scanning matchers with the
  same observable behaviour on the inputs the source feeds them.
* `undefined`-or-value fields become `Option`; JS truthiness tests on strings
  (`if (!s)`, `s ? a : b`) are transcribed as emptiness tests.
* The ts-morph `Type` objects are modelled by the inductive `Ty` below, which
  records exactly the observations the source performs on a type
  (`getText`, `isString`, `isArray`, `getTypeArguments`, `getArrayElementType`,
  `getStringIndexType`, `getProperties`, symbol name).
-/

namespace McpGen

/-- JS `\s` (whitespace class) restricted to the ASCII whitespace characters;
the Unicode space characters JS additionally accepts do not occur in the
source texts handled here. -/
def jsWs (c : Char) : Bool :=
  c = ' ' || c = '\t' || c = '\n' || c = '\r' || c = '\x0b' || c = '\x0c'

/-- Characters matched by the JS regex `.` (anything but a line terminator). -/
def dotChar (c : Char) : Bool :=
  c ≠ '\n' && c ≠ '\r'

/-- JS `String.prototype.trim` on character lists. -/
def trimChars (cs : List Char) : List Char :=
  ((cs.dropWhile jsWs).reverse.dropWhile jsWs).reverse

/-- JS `String.prototype.startsWith`, over the character lists of the two
strings. -/
def strStartsWith (s p : String) : Bool :=
  p.data.isPrefixOf s.data

/-- JS `String.prototype.split` with the separator `"\n"`: the list of lines,
keeping empty segments (an empty input yields one empty line). -/
def splitNl (s : String) : List String :=
  go s.data []
where
  go : List Char → List Char → List String
    | [], acc => [⟨acc.reverse⟩]
    | '\n' :: rest, acc => (⟨acc.reverse⟩ : String) :: go rest []
    | c :: rest, acc => go rest (c :: acc)

/-- JS `String.prototype.trim`. -/
def jsTrim (s : String) : String :=
  ⟨trimChars s.data⟩

/-- `line.replace(/^\s*\*\s?/, "")`: if the line starts with optional
whitespace followed by a `*`, drop that prefix together with at most one
whitespace character after the `*`; otherwise leave the line unchanged. -/
def stripStarChars (cs : List Char) : List Char :=
  match cs.dropWhile jsWs with
  | '*' :: rest =>
      match rest with
      | c :: rest2 => if jsWs c then rest2 else rest
      | [] => []
  | _ => cs

/-- The source's per-line normalisation `line.replace(/^\s*\*\s?/, "").trim()`. -/
def stripStar (line : String) : String :=
  ⟨trimChars (stripStarChars line.data)⟩

/-- Matches the regex tail `\s+(.+)` against `rest` (anchored at its start),
with the greedy/backtracking semantics of the JS engine: the `\s+` part
prefers the maximal whitespace run but gives characters back to `(.+)` when
needed; `.` does not match line terminators.  Returns the capture. -/
def wsThenDotPlus (rest : List Char) : Option (List Char) :=
  go (rest.takeWhile jsWs).length rest
where
  go : Nat → List Char → Option (List Char)
    | 0, _ => none
    | k + 1, rest =>
        let cand := (rest.drop (k + 1)).takeWhile dotChar
        if cand ≠ [] then some cand else go k rest

/-- Matches the regex tail `\s+(\S+)` against `rest` (anchored at its start):
at least one whitespace character, then a maximal nonempty run of
non-whitespace characters, which is captured. -/
def wsThenWordRun (rest : List Char) : Option (List Char) :=
  match rest with
  | c :: _ =>
      if jsWs c then
        let cand := (rest.dropWhile jsWs).takeWhile (fun c => !jsWs c)
        if cand ≠ [] then some cand else none
      else none
  | [] => none

/-- Unanchored regex search: at every position of `s`, try the literal `tag`
followed by `tail`; the JS engine advances one character on failure. -/
def scanFor {α : Type} (tag : List Char) (tail : List Char → Option α) :
    List Char → Option α
  | [] => none
  | c :: cs =>
      match (if tag.isPrefixOf (c :: cs) then tail ((c :: cs).drop tag.length) else none) with
      | some a => some a
      | none => scanFor tag tail cs

/-- `s.match(new RegExp(tag + "\\s+(.+)"))`, returning the first capture:
used for the `@resource` and `@mimeType` tag arguments. -/
def matchTagArg (tag : String) (s : String) : Option String :=
  (scanFor tag.data wsThenDotPlus s.data).map fun cs => ⟨cs⟩

/-- `s.match(new RegExp(tag + "\\s+(\\S+)"))`, returning the first capture:
used for the optional custom names of the `@tool` and `@prompt` tags. -/
def matchTagWord (tag : String) (s : String) : Option String :=
  (scanFor tag.data wsThenWordRun s.data).map fun cs => ⟨cs⟩

/-- JS word characters, `\w`. -/
def wordChar (c : Char) : Bool :=
  (c ≥ 'a' && c ≤ 'z') || (c ≥ 'A' && c ≤ 'Z') || (c ≥ '0' && c ≤ '9') || c = '_'

/-- Matches the tail of the `@param` regex,
`\s+(?:\{[^}]+\}\s+)?(\w+)\s*(.*)`, against `rest` (anchored): whitespace,
an optional `{type}` annotation, the captured parameter name, then the
captured remainder of the line.  The optional group is tried first, as the
JS engine does, and abandoned if the rest of the pattern cannot follow it. -/
def matchParamTail (rest : List Char) : Option (String × String) :=
  match rest with
  | c :: _ =>
      if jsWs c then
        let afterWs := rest.dropWhile jsWs
        match withBrace afterWs with
        | some r => some r
        | none => wordAndRest afterWs
      else none
  | [] => none
where
  /-- `(\w+)\s*(.*)` at `cs`. -/
  wordAndRest (cs : List Char) : Option (String × String) :=
    let w := cs.takeWhile wordChar
    if w ≠ [] then
      let after := (cs.drop w.length).dropWhile jsWs
      some (⟨w⟩, ⟨after.takeWhile dotChar⟩)
    else none
  /-- `\{[^}]+\}\s+` then `(\w+)\s*(.*)`, at `cs`. -/
  withBrace (cs : List Char) : Option (String × String) :=
    match cs with
    | '\x7b' :: rest1 =>
        let body := rest1.takeWhile (fun c => c ≠ '\x7d')
        if body ≠ [] then
          match rest1.drop body.length with
          | '\x7d' :: rest2 =>
              match rest2 with
              | c :: _ =>
                  if jsWs c then wordAndRest (rest2.dropWhile jsWs) else none
              | [] => none
          | _ => none
        else none
    | _ => none

/-- `s.match(/@param\s+(?:\{[^}]+\}\s+)?(\w+)\s*(.*)/)`, first match. -/
def matchParamTag (s : String) : Option (String × String) :=
  scanFor "@param".data matchParamTail s.data

/-- `s.replace(/^["']|["']$/g, "")`: strip one leading and one trailing
quote character (single or double), when present. -/
def stripQuotes (s : String) : String :=
  let isQuote : Char → Bool := fun c => c = '"' || c = '\x27'
  let cs := s.data
  let cs1 := match cs with
    | c :: rest => if isQuote c then rest else cs
    | [] => []
  let cs2 := match cs1.reverse with
    | c :: rest => if isQuote c && cs.length ≥ 2 then rest.reverse else cs1
    | [] => cs1
  ⟨cs2⟩

/-- JS `Map.prototype.set` on an association list: replace the value of an
existing key in place, otherwise append the binding. -/
def mapSet (m : List (String × String)) (k v : String) : List (String × String) :=
  if m.any (fun p => p.1 = k) then
    m.map fun p => if p.1 = k then (k, v) else p
  else m ++ [(k, v)]

/-- JS `Map.prototype.get` on an association list (`undefined` = `none`). -/
def mapGet (m : List (String × String)) (k : String) : Option String :=
  (m.find? (fun p => p.1 = k)).map Prod.snd

/-! ## The ts-morph type model

`Ty` records the observations `src/parser.ts` performs on a ts-morph `Type`.
A structured type's properties are `(name, optionality, declared type)`
triples: the optionality bit is the question-token test the source performs
on the property's declaration (`false` when there is no such declaration). -/

/-- The three primitive classifications the source tests for
(`isString`, `isNumber`, `isBoolean`). -/
inductive PrimKind where
  | string
  | number
  | boolean
deriving DecidableEq, Repr

/-- Model of a ts-morph `Type`.  `promiseT` is a `Promise<T>` reference
(an object type whose text is `Promise<...>` with one type argument);
`objT` is any other object type, carrying its symbol name, its string index
signature type (for `Record<string, T>`-like types) and its declared
properties; `otherT` covers every type none of the source's predicates
recognise, carrying its printed text. -/
inductive Ty where
  | prim (k : PrimKind)
  | voidT
  | undefT
  | arrayT (elem : Ty)
  | promiseT (arg : Ty)
  | objT (symbolName : Option String) (stringIndex : Option Ty)
      (props : List (String × Bool × Ty))
  | otherT (text : String)

/-- `Type.getText()`.  Primitives and `void`/`undefined` print their keyword,
arrays print `T[]`, promises print `Promise<T>`.  Object types print as a
structural or named form; the placeholder used here keeps the only two facts
the source relies on: the text of a non-promise object type neither begins
with `"Promise<"` nor equals `"void"`/`"undefined"`. -/
def getText : Ty → String
  | .prim .string => "string"
  | .prim .number => "number"
  | .prim .boolean => "boolean"
  | .voidT => "void"
  | .undefT => "undefined"
  | .arrayT e => getText e ++ "[]"
  | .promiseT a => "Promise<" ++ getText a ++ ">"
  | .objT _ _ _ => "\x7b ... \x7d"
  | .otherT t => t

/-- `Type.isString()`. -/
def Ty.isString : Ty → Bool
  | .prim .string => true
  | _ => false

/-- `Type.isNumber()`. -/
def Ty.isNumber : Ty → Bool
  | .prim .number => true
  | _ => false

/-- `Type.isBoolean()`. -/
def Ty.isBoolean : Ty → Bool
  | .prim .boolean => true
  | _ => false

/-- `Type.isArray()`. -/
def Ty.isArray : Ty → Bool
  | .arrayT _ => true
  | _ => false

/-- `Type.isUndefined()`. -/
def Ty.isUndefined : Ty → Bool
  | .undefT => true
  | _ => false

/-- `Type.isObject()`: true for object types, promises and arrays (the source
always tests `isArray` before `isObject`, so the array case never reaches an
`isObject` test). -/
def Ty.isObject : Ty → Bool
  | .objT _ _ _ => true
  | .promiseT _ => true
  | .arrayT _ => true
  | _ => false

/-- `Type.getTypeArguments()`: a `Promise<T>` reference has type arguments
`[T]`; an array type `T[]` is an `Array<T>` reference with type arguments
`[T]`; the other modelled types have none. -/
def getTypeArguments : Ty → List Ty
  | .promiseT a => [a]
  | .arrayT e => [e]
  | _ => []

/-- `Type.getArrayElementType()`. -/
def getArrayElementType : Ty → Option Ty
  | .arrayT e => some e
  | _ => none

/-- `Type.getStringIndexType()`. -/
def getStringIndexType : Ty → Option Ty
  | .objT _ si _ => si
  | _ => none

/-- `Type.getSymbol()?.getName()`. -/
def getSymbolName : Ty → Option String
  | .objT sym _ _ => sym
  | _ => none

/-- `Type.getProperties()` together with each property's declared type and
question-token optionality. -/
def getProperties : Ty → List (String × Bool × Ty)
  | .objT _ _ ps => ps
  | _ => []

/-- `typeToJsonSchemaType` from src/parser.ts: classification of an input
parameter's type. -/
def typeToJsonSchemaType (t : Ty) : String :=
  let typeText := getText t
  if t.isString || typeText = "string" then "string"
  else if t.isNumber || typeText = "number" then "number"
  else if t.isBoolean || typeText = "boolean" then "boolean"
  else if t.isArray then "array"
  else if t.isObject then "object"
  else "string"

/-! ## The output schema tree -/

/-- The `type` tag of an `OutputSchema` node
(`"string" | "number" | "boolean" | "array" | "object" | "void" | "record"`). -/
inductive SchemaType where
  | string
  | number
  | boolean
  | array
  | object
  | void
  | record
deriving DecidableEq, Repr

mutual
/-- The `OutputSchema` interface of src/parser.ts: tag, optional `properties`
(for objects), optional `items` (for arrays), optional `valueType`
(for records). -/
inductive OutputSchema where
  | mk (type : SchemaType)
      (properties : Option (List OutputSchemaProperty))
      (items : Option OutputSchema)
      (valueType : Option OutputSchema)

/-- The `OutputSchemaProperty` interface of src/parser.ts.  The source sets
`optional: isOptional || undefined`; since every use of the field is a JS
truthiness test, `undefined` and `false` are identified and the field is a
`Bool`. -/
inductive OutputSchemaProperty where
  | mk (name : String) (type : SchemaType) (optional : Bool)
      (items : Option OutputSchema)
      (properties : Option (List OutputSchemaProperty))
end

def OutputSchema.type : OutputSchema → SchemaType
  | .mk t _ _ _ => t

def OutputSchema.properties : OutputSchema → Option (List OutputSchemaProperty)
  | .mk _ p _ _ => p

def OutputSchema.items : OutputSchema → Option OutputSchema
  | .mk _ _ i _ => i

def OutputSchema.valueType : OutputSchema → Option OutputSchema
  | .mk _ _ _ v => v

def OutputSchemaProperty.name : OutputSchemaProperty → String
  | .mk n _ _ _ _ => n

def OutputSchemaProperty.type : OutputSchemaProperty → SchemaType
  | .mk _ t _ _ _ => t

def OutputSchemaProperty.optional : OutputSchemaProperty → Bool
  | .mk _ _ o _ _ => o

def OutputSchemaProperty.items : OutputSchemaProperty → Option OutputSchema
  | .mk _ _ _ i _ => i

def OutputSchemaProperty.properties :
    OutputSchemaProperty → Option (List OutputSchemaProperty)
  | .mk _ _ _ _ p => p

/-- The default item/value schema `{ type: "string" }`. -/
def stringSchema : OutputSchema :=
  OutputSchema.mk .string none none none

/-- `typeToOutputSchemaType` from src/parser.ts. -/
def typeToOutputSchemaType (t : Ty) : SchemaType :=
  if t.isString then .string
  else if t.isNumber then .number
  else if t.isBoolean then .boolean
  else if t.isArray then .array
  else
    let typeText := getText t
    if typeText = "void" || typeText = "undefined" || t.isUndefined then .void
    else if t.isObject then .object
    else .string

mutual
/-- `parseTypeToOutputSchema` from src/parser.ts, transcribed per `Ty`
constructor.  The source first tests whether `getText` begins with
`"Promise<"` and `getTypeArguments` is nonempty, and if so recurses on the
first type argument; this fires for `promiseT` always, and for `arrayT e`
exactly when `getText e` begins with `"Promise<"` (an array of promises,
whose single type argument is its element).  For `otherT` the type-argument
list is empty, so the check falls through there even if the text happens to
begin with `"Promise<"`. -/
def parseTypeToOutputSchema : Ty → Option OutputSchema
  | Ty.promiseT a => parseTypeToOutputSchema a
  | Ty.arrayT e =>
      if strStartsWith (getText (Ty.arrayT e)) "Promise<" then
        -- getTypeArguments (arrayT e) = [e]: the Promise-unwrap step recurses
        -- on the array's element instead of reaching the array branch
        parseTypeToOutputSchema e
      else
        -- schemaType = "array": recurse into the element type
        -- (getArrayElementType (arrayT e) = some e, so the source's fallback
        -- for an unobtainable element type is unreachable here); a `none`
        -- element schema defaults to a string item schema
        some (OutputSchema.mk .array none
          (some ((parseTypeToOutputSchema e).getD stringSchema)) none)
  | Ty.prim .string => some (OutputSchema.mk .string none none none)
  | Ty.prim .number => some (OutputSchema.mk .number none none none)
  | Ty.prim .boolean => some (OutputSchema.mk .boolean none none none)
  | Ty.voidT => none
  | Ty.undefT => none
  | Ty.objT symbolName stringIndex props =>
      -- schemaType = "object"
      match stringIndex with
      | some idxTy =>
          -- index signature: Record<string, T>
          some (OutputSchema.mk .record none none
            (some ((parseTypeToOutputSchema idxTy).getD stringSchema)))
      | none =>
          if props.length = 0 then none
          else if symbolName = some "Date" || symbolName = some "RegExp"
              || symbolName = some "Error" then none
          else
            let schemaProperties := parseProps props
            if schemaProperties.length = 0 then none
            else some (OutputSchema.mk .object (some schemaProperties) none none)
  | Ty.otherT text =>
      -- no predicate matches: typeToOutputSchemaType yields "void" for the
      -- literal texts "void"/"undefined" and otherwise falls through to
      -- "string"
      if text = "void" || text = "undefined" then none
      else some stringSchema

/-- The property loop of the object branch of `parseTypeToOutputSchema`:
skip `_`-prefixed names, skip properties whose schema is `none`, copy the
schema's tag, items and properties onto the emitted property record. -/
def parseProps : List (String × Bool × Ty) → List OutputSchemaProperty
  | [] => []
  | (propName, isOptional, propTy) :: rest =>
      if strStartsWith propName "_" then parseProps rest
      else
        match parseTypeToOutputSchema propTy with
        | none => parseProps rest
        | some propSchema =>
            OutputSchemaProperty.mk propName propSchema.type isOptional
              propSchema.items propSchema.properties :: parseProps rest
end

/-! ## The annotation extractor (`parseJsDocDescription`) -/

/-- The mutable locals of the line loop of `parseJsDocDescription`. -/
structure JsDocState where
  descriptionLines : List String
  params : List (String × String)
  uri : Option String
  mimeType : Option String
  toolName : Option String
  promptName : Option String
  isPrompt : Bool
deriving Repr

def emptyJsDocState : JsDocState :=
  ⟨[], [], none, none, none, none, false⟩

/-- One iteration of the line loop of `parseJsDocDescription`: trim the
block-comment marker, then dispatch on the tag prefix exactly as the
source's if/else chain does. -/
def lineStep (st : JsDocState) (line : String) : JsDocState :=
  let trimmed := stripStar line
  if strStartsWith trimmed "@param" then
    match matchParamTag trimmed with
    | some (n, d) => { st with params := mapSet st.params n (jsTrim d) }
    | none => st
  else if strStartsWith trimmed "@resource" then
    match matchTagArg "@resource" trimmed with
    | some u => { st with uri := some (jsTrim u) }
    | none => st
  else if strStartsWith trimmed "@mimeType" then
    match matchTagArg "@mimeType" trimmed with
    | some m => { st with mimeType := some (stripQuotes (jsTrim m)) }
    | none => st
  else if strStartsWith trimmed "@tool" then
    -- toolName = match ? match[1].trim() : undefined  (a bare @tool resets it)
    { st with toolName := (matchTagWord "@tool" trimmed).map jsTrim }
  else if strStartsWith trimmed "@prompt" then
    { st with isPrompt := true,
              promptName := (matchTagWord "@prompt" trimmed).map jsTrim }
  else if strStartsWith trimmed "@" then st
  else if trimmed ≠ "" && !strStartsWith trimmed "/" then
    { st with descriptionLines := st.descriptionLines ++ [trimmed] }
  else st

/-- The `JsDocParseResult` union of src/parser.ts. -/
inductive JsDocParseResult where
  | tool (description : String) (params : List (String × String))
      (toolName : Option String)
  | prompt (description : String) (params : List (String × String))
      (promptName : Option String)
  | resource (description : String) (params : List (String × String))
      (uri : String) (mimeType : Option String)
deriving Repr

/-- The `kind` discriminant of a `JsDocParseResult`. -/
inductive DocKind where
  | toolK
  | promptK
  | resourceK
deriving DecidableEq, Repr

def JsDocParseResult.kind : JsDocParseResult → DocKind
  | .tool .. => .toolK
  | .prompt .. => .promptK
  | .resource .. => .resourceK

def JsDocParseResult.description : JsDocParseResult → String
  | .tool d _ _ => d
  | .prompt d _ _ => d
  | .resource d _ _ _ => d

def JsDocParseResult.params : JsDocParseResult → List (String × String)
  | .tool _ p _ => p
  | .prompt _ p _ => p
  | .resource _ p _ _ => p

/-- `parseJsDocDescription` from src/parser.ts: run the line loop over the
newline-split comment text, join the accumulated description lines with
single spaces, then classify — a parsed resource URI wins unconditionally,
otherwise a seen `@prompt` tag wins, otherwise the function is a tool. -/
def parseJsDocDescription (jsDoc : String) : JsDocParseResult :=
  let st := (splitNl jsDoc).foldl lineStep emptyJsDocState
  let description := jsTrim (" ".intercalate st.descriptionLines)
  match st.uri with
  | some uri => .resource description st.params uri st.mimeType
  | none =>
      if st.isPrompt then .prompt description st.params st.promptName
      else .tool description st.params st.toolName

/-! ## The IR assembler (`parseTypeScriptFile`) -/

/-- The `ToolParameter` interface of src/parser.ts. -/
structure ToolParameter where
  name : String
  type : String
  description : Option String
  required : Bool
deriving DecidableEq, Repr

/-- The `ToolDefinition` interface of src/parser.ts. -/
structure ToolDefinition where
  name : String
  description : String
  parameters : List ToolParameter
  returnType : String
  outputSchema : Option OutputSchema

/-- The `PromptDefinition` interface of src/parser.ts. -/
structure PromptDefinition where
  name : String
  description : String
  parameters : List ToolParameter
deriving DecidableEq, Repr

/-- The `subscribeType` values `"generator" | "async"`. -/
inductive SubscribeType where
  | generator
  | async
deriving DecidableEq, Repr

/-- The `ResourceDefinition` interface of src/parser.ts. -/
structure ResourceDefinition where
  name : String
  description : String
  uri : String
  mimeType : Option String
  parameters : List ToolParameter
  subscribeType : Option SubscribeType
  hasList : Bool
deriving DecidableEq, Repr

/-- A declared parameter of an exported function, as the source observes it:
`getName()`, `getType()`, `isOptional()`, `hasInitializer()`. -/
structure ParamDecl where
  name : String
  ty : Ty
  isOptional : Bool
  hasInitializer : Bool

/-- An exported candidate function, as the source observes it: `getName()`
(`none` when anonymous), `isExported()`, `getJsDocs()` (the text of each
leading doc block), the declared parameter list, and `getReturnType()`. -/
structure FunctionDecl where
  name : Option String
  isExported : Bool
  jsDocs : List String
  params : List ParamDecl
  returnType : Ty

/-- The parameter-building step of the extraction loop in
`parseTypeScriptFile`: classification from the declared type, description
from the matching `@param` tag, `required` false iff the parameter is
declared optional or carries an initializer. -/
def mkToolParameter (docParams : List (String × String)) (p : ParamDecl) :
    ToolParameter :=
  let isOptional := p.isOptional || p.hasInitializer
  { name := p.name
    type := typeToJsonSchemaType p.ty
    description := mapGet docParams p.name
    required := !isOptional }

/-- `detectSubscribeType` from src/parser.ts: search the module's full text
for the pattern `<fnName>.subscribe\s*=\s*(async\s+)?function\s*(\*)?`; a
trailing `*` marks a generator-driven subscription, otherwise it is
poll-driven; no match means the resource is not subscribable.  The function
name is interpolated literally into the regex (it is an identifier, so it
carries no metacharacters). -/
def detectSubscribeType (sourceText : String) (fnName : String) :
    Option SubscribeType :=
  scanFor (fnName ++ ".subscribe").data subscribeTail sourceText.data
where
  /-- Matches `\s*=\s*(async\s+)?function\s*(\*)?` anchored at `s`, returning
  the subscription kind indicated by the optional `*`.  The optional `async`
  group is tried first and abandoned when `function` cannot follow it, as
  the JS engine's backtracking does. -/
  subscribeTail (s : List Char) : Option SubscribeType :=
    match s.dropWhile jsWs with
    | '=' :: s2 =>
        let s3 := s2.dropWhile jsWs
        let afterAsync : Option (List Char) :=
          if "async".data.isPrefixOf s3 then
            let r := s3.drop 5
            match r with
            | c :: _ => if jsWs c then some (r.dropWhile jsWs) else none
            | [] => none
          else none
        let tryFn : List Char → Option SubscribeType := fun u =>
          if "function".data.isPrefixOf u then
            let v := (u.drop 8).dropWhile jsWs
            some (if v.head? = some '*' then .generator else .async)
          else none
        match afterAsync with
        | some u =>
            match tryFn u with
            | some k => some k
            | none => tryFn s3
        | none => tryFn s3
    | _ => none

/-- `detectHasList` from src/parser.ts: search the module's full text for the
pattern `<fnName>.list\s*=`. -/
def detectHasList (sourceText : String) (fnName : String) : Bool :=
  (scanFor (fnName ++ ".list").data listTail sourceText.data).isSome
where
  listTail (s : List Char) : Option Unit :=
    match s.dropWhile jsWs with
    | '=' :: _ => some ()
    | _ => none

/-- JS `a || b` on an optional string (both `undefined` and the empty string
are falsy). -/
def jsOrElse (a : Option String) (b : String) : String :=
  match a with
  | some s => if s = "" then b else s
  | none => b

/-- One IR record produced for one exported function. -/
inductive Contribution where
  | tool (t : ToolDefinition)
  | prompt (p : PromptDefinition)
  | resource (r : ResourceDefinition)

/-- The body of the extraction loop of `parseTypeScriptFile` for one exported
function; `none` transcribes the loop's `continue` (the function contributes
to no collection and no error is raised — the whole pipeline is total). -/
def processFn (sourceText : String) (fn : FunctionDecl) : Option Contribution :=
  match fn.name with
  | none => none
  | some name =>
      match fn.jsDocs with
      | [] => none
      | jsDocText :: _ =>
          let jsDoc := parseJsDocDescription jsDocText
          if jsDoc.description = "" then none
          else
            let parameters := fn.params.map (mkToolParameter jsDoc.params)
            match jsDoc with
            | .resource description _ uri mimeType =>
                some (.resource
                  { name
                    description
                    uri
                    mimeType
                    parameters
                    subscribeType := detectSubscribeType sourceText name
                    hasList := detectHasList sourceText name })
            | .prompt description _ promptName =>
                some (.prompt
                  { name := jsOrElse promptName name
                    description
                    parameters })
            | .tool description _ toolName =>
                some (.tool
                  { name := jsOrElse toolName name
                    description
                    parameters
                    returnType := getText fn.returnType
                    outputSchema := parseTypeToOutputSchema fn.returnType })

/-- The result record of `parseTypeScriptFile` (the source also returns the
ts-morph `SourceFile`, a handle on the input, not part of the IR). -/
structure ParseResultIR where
  tools : List ToolDefinition
  prompts : List PromptDefinition
  resources : List ResourceDefinition

/-- The per-function contributions of a module, in declaration order. -/
def contributions (fns : List FunctionDecl) (sourceText : String) :
    List Contribution :=
  (fns.filter (fun fn => fn.isExported)).filterMap (processFn sourceText)

/-- `parseTypeScriptFile` from src/parser.ts, over the module's function
declarations and full source text: each exported function is pushed into at
most one of the three collections. -/
def parseTypeScriptFile (fns : List FunctionDecl) (sourceText : String) :
    ParseResultIR :=
  { tools := (contributions fns sourceText).filterMap fun c =>
      match c with
      | .tool t => some t
      | _ => none
    prompts := (contributions fns sourceText).filterMap fun c =>
      match c with
      | .prompt p => some p
      | _ => none
    resources := (contributions fns sourceText).filterMap fun c =>
      match c with
      | .resource r => some r
      | _ => none }

/-! ## The protocol compiler (`generateServerCode`): tool registration -/

def hexDigit (n : Nat) : Char :=
  if n < 10 then Char.ofNat (48 + n) else Char.ofNat (87 + n)

/-- `JSON.stringify` of one character of a string. -/
def jsonEscape (c : Char) : String :=
  if c = '"' then "\\\""
  else if c = '\\' then "\\\\"
  else if c = '\x08' then "\\b"
  else if c = '\x0c' then "\\f"
  else if c = '\n' then "\\n"
  else if c = '\r' then "\\r"
  else if c = '\t' then "\\t"
  else if c.toNat < 32 then
    "\\u00" ++ ⟨[hexDigit (c.toNat / 16), hexDigit (c.toNat % 16)]⟩
  else String.singleton c

/-- `JSON.stringify` on a string value (the descriptions and names serialised
into the generated module are plain text, so the surrogate-pair handling of
full JSON is not needed). -/
def jsonStringify (s : String) : String :=
  "\"" ++ String.join (s.data.map jsonEscape) ++ "\""

/-- `"  ".repeat(indent)`. -/
def padOf (indent : Nat) : String :=
  String.join (List.replicate indent "  ")

/-- `paramToZodType` from src/generator.ts.  A present-but-empty description
is falsy in JS, so it adds no `.describe` call. -/
def paramToZodType (param : ToolParameter) : String :=
  let baseType :=
    if param.type = "number" then "z.number()"
    else if param.type = "boolean" then "z.boolean()"
    else if param.type = "array" then "z.array(z.unknown())"
    else if param.type = "object" then "z.object(\x7b\x7d)"
    else "z.string()"
  let withDescription :=
    match param.description with
    | some d =>
        if d ≠ "" then baseType ++ ".describe(" ++ jsonStringify d ++ ")"
        else baseType
    | none => baseType
  if param.required then withDescription else withDescription ++ ".optional()"

/-- `generateZodSchema` from src/generator.ts. -/
def generateZodSchema (parameters : List ToolParameter) : String :=
  if parameters.length = 0 then "\x7b\x7d"
  else
    let schemaEntries := String.intercalate ",\n"
      (parameters.map fun p => "    " ++ p.name ++ ": " ++ paramToZodType p)
    "\x7b\n" ++ schemaEntries ++ "\n  \x7d"

mutual
/-- `outputSchemaToZod` from src/generator.ts.  The switch's `default` case
(reached only by the `"void"` tag, which `parseTypeToOutputSchema` never
emits) renders `z.unknown()`. -/
def outputSchemaToZod (schema : OutputSchema) (indent : Nat) : String :=
  let pad := padOf indent
  match schema with
  | .mk .string _ _ _ => "z.string()"
  | .mk .number _ _ _ => "z.number()"
  | .mk .boolean _ _ _ => "z.boolean()"
  | .mk .array _ items _ =>
      match items with
      | some it => "z.array(" ++ outputSchemaToZod it indent ++ ")"
      | none => "z.array(z.unknown())"
  | .mk .record _ _ valueType =>
      match valueType with
      | some v => "z.record(z.string(), " ++ outputSchemaToZod v indent ++ ")"
      | none => "z.record(z.string(), z.unknown())"
  | .mk .object properties _ _ =>
      match properties with
      | some ps =>
          if ps.length > 0 then
            "z.object(\x7b\n" ++ String.intercalate ",\n" (propZodLines ps indent pad)
              ++ "\n" ++ pad ++ "  \x7d)"
          else "z.object(\x7b\x7d)"
      | none => "z.object(\x7b\x7d)"
  | .mk .void _ _ _ => "z.unknown()"

/-- The property lines of a rendered `z.object({...})`: each property is
rendered at `indent + 1` behind `pad + four spaces`, and the lines are
joined with `",\n"` by the caller. -/
def propZodLines (ps : List OutputSchemaProperty) (indent : Nat) (pad : String) :
    List String :=
  match ps with
  | [] => []
  | p :: rest =>
      (pad ++ "    " ++ p.name ++ ": " ++ outputSchemaPropertyToZod p (indent + 1))
        :: propZodLines rest indent pad

/-- `outputSchemaPropertyToZod` from src/generator.ts.  The switch's
`default` case covers the `"record"` tag (which reaches properties through
the cast in src/parser.ts, with its value type dropped) and renders
`z.unknown()`. -/
def outputSchemaPropertyToZod (prop : OutputSchemaProperty) (indent : Nat) :
    String :=
  let zodType :=
    match prop with
    | .mk _ .string _ _ _ => "z.string()"
    | .mk _ .number _ _ _ => "z.number()"
    | .mk _ .boolean _ _ _ => "z.boolean()"
    | .mk _ .array _ items _ =>
        match items with
        | some it => "z.array(" ++ outputSchemaToZod it indent ++ ")"
        | none => "z.array(z.unknown())"
    | .mk _ .object _ _ properties =>
        match properties with
        | some ps =>
            if ps.length > 0 then
              let pad := padOf indent
              "z.object(\x7b\n" ++ String.intercalate ",\n" (propZodLines ps indent pad)
                ++ "\n" ++ pad ++ "  \x7d)"
            else "z.object(\x7b\x7d)"
        | none => "z.object(\x7b\x7d)"
    | .mk _ .void _ _ _ => "z.unknown()"
    | .mk _ .record _ _ _ => "z.unknown()"
  if prop.optional then zodType ++ ".optional()" else zodType
end

/-- The `isCallToolResult` test of the tool-registration loop: an object
output schema with an array-typed property named `content` is treated as a
protocol `CallToolResult` and passed through unchanged. -/
def isCallToolResultSchema (outputSchema : Option OutputSchema) : Bool :=
  match outputSchema with
  | some s =>
      s.type == SchemaType.object &&
        (match s.properties with
          | some ps => ps.any fun p => p.name == "content" && p.type == SchemaType.array
          | none => false)
  | none => false

/-- The `hasOutputSchema` test of the tool-registration loop: an output
validator is considered only for object- and array-shaped schemas. -/
def hasOutputSchemaFlag (tool : ToolDefinition) : Bool :=
  match tool.outputSchema with
  | some s => s.type == SchemaType.object || s.type == SchemaType.array
  | none => false

/-- The `isArrayOutput` test of the tool-registration loop. -/
def isArrayOutput (tool : ToolDefinition) : Bool :=
  match tool.outputSchema with
  | some s => s.type == SchemaType.array
  | none => false

/-- The `outputSchemaStr` fragment of one generated tool registration: empty
for a `CallToolResult` pass-through and for schema-less tools; an object
validator wrapping the array schema under a single `results` field for array
outputs; the object schema itself for object outputs. -/
def outputSchemaStr (tool : ToolDefinition) : String :=
  if isCallToolResultSchema tool.outputSchema then ""
  else if hasOutputSchemaFlag tool then
    match tool.outputSchema with
    | some s =>
        if isArrayOutput tool then
          ",\n      outputSchema: z.object(\x7b results: "
            ++ outputSchemaToZod s 3 ++ " \x7d)"
        else
          ",\n      outputSchema: " ++ outputSchemaToZod s 3
    | none => ""
  else ""

/-- The `returnStatement` fragment of one generated tool handler:
pass-through for `CallToolResult` shapes; text plus `results`-wrapped
structured content for array outputs; text plus the raw structured result
for object outputs; text only otherwise. -/
def returnStatement (tool : ToolDefinition) : String :=
  if isCallToolResultSchema tool.outputSchema then
    "return result as CallToolResult;"
  else if hasOutputSchemaFlag tool then
    if isArrayOutput tool then
      "return \x7b\n        content: [\n          \x7b\n            type: \"text\",\n            text: JSON.stringify(result, null, 2),\n          \x7d,\n        ],\n        structuredContent: \x7b results: result \x7d,\n      \x7d;"
    else
      "return \x7b\n        content: [\n          \x7b\n            type: \"text\",\n            text: JSON.stringify(result, null, 2),\n          \x7d,\n        ],\n        structuredContent: result,\n      \x7d;"
  else
    "return \x7b\n        content: [\n          \x7b\n            type: \"text\",\n            text: typeof result === \"string\" ? result : JSON.stringify(result),\n          \x7d,\n        ],\n      \x7d;"

/-- One entry of the `toolRegistrations` list of `generateServerCode`: the
full `server.registerTool(...)` source fragment emitted for one tool. -/
def toolRegistration (tool : ToolDefinition) : String :=
  let zodSchema := generateZodSchema tool.parameters
  let paramNames := tool.parameters.map fun p => p.name
  let argsDestructure :=
    if paramNames.length > 0 then
      "const \x7b " ++ String.intercalate ", " paramNames ++ " \x7d = args;"
    else ""
  let callArgs := String.intercalate ", " paramNames
  "\n  server.registerTool(\n    \"" ++ tool.name ++ "\",\n    \x7b\n      description: "
    ++ jsonStringify tool.description ++ ",\n      inputSchema: " ++ zodSchema
    ++ outputSchemaStr tool ++ ",\n    \x7d,\n    async (args) => \x7b\n      "
    ++ argsDestructure ++ "\n      const result = await " ++ tool.name ++ "("
    ++ callArgs ++ ");\n      " ++ returnStatement tool ++ "\n    \x7d\n  );"

/-! ## The generation pipeline (`generateMcpServer`) -/

/-- The output artifacts `generateMcpServer` produces, in order.  (Logging
goes to the console and creates no artifact; the type-declaration step may
fail, in which case it only warns.) -/
inductive GenStep where
  | mkdirOutput
  | writeToolsBundle
  | writeToolsDecl
  | writeServerSource
  | writeServerBundle
  | writePackageJson
deriving DecidableEq, Repr

/-- The message of the fatal error raised when extraction finds nothing. -/
def noFunctionsError : String :=
  "No exported functions with JSDoc comments found. "
    ++ "Make sure your functions are exported and have \x2f** *\x2f doc comments."

/-- `generateMcpServer` from src/generator.ts, modelled as the sequence of
filesystem artifacts it produces: when extraction discovers no tool, prompt
or resource it throws before creating the output directory or any file;
otherwise the artifacts are produced in source order. -/
def generateMcpServer (parsed : ParseResultIR) : Except String (List GenStep) :=
  if parsed.tools.length = 0 ∧ parsed.prompts.length = 0
      ∧ parsed.resources.length = 0 then
    Except.error noFunctionsError
  else
    Except.ok [GenStep.mkdirOutput, GenStep.writeToolsBundle,
      GenStep.writeToolsDecl, GenStep.writeServerSource,
      GenStep.writeServerBundle, GenStep.writePackageJson]

/-! ## The generated subscription state machine

The generated `getServer` body keeps `__subscriptions`, a map from resource
URI to a per-subscription `{ stop: boolean }` cell, and one driving task per
tracked URI (the async IIFE of `__generatorSubscription` /
`__asyncSubscription`).  The subscribe request handler returns immediately
when the URI is already tracked, and otherwise — when some registered
subscribable resource matches the URI — creates a fresh cell and launches one
task.  The unsubscribe handler only sets the cell's `stop` flag.  A task
checks the flag at each loop boundary and, on observing it (or on a failed
notification or a generator error), deletes its map entry and exits in one
synchronous segment; under the event loop there is no interleaving point
between that check, the deletion and the task's end.  The model below is a
labelled transition system over exactly this state; task steps that merely
send a notification do not change the state, and every way a task can finish
is the `taskExit` label. -/

/-- The subscription-relevant runtime state of a generated server instance:
the `__subscriptions` map (URI and `stop` flag, newest first) and the URIs of
the live driving tasks. -/
structure SubSt where
  tracked : List (String × Bool)
  tasks : List String
deriving DecidableEq, Repr

/-- `__subscriptions.has(uri)`. -/
def hasKey (m : List (String × Bool)) (uri : String) : Bool :=
  m.any fun p => p.1 == uri

/-- `state.stop = true` on the cell of `uri` (the unsubscribe handler's
effect; a no-op when the URI is untracked). -/
def setStop (m : List (String × Bool)) (uri : String) : List (String × Bool) :=
  m.map fun p => if p.1 == uri then (p.1, true) else p

/-- `__subscriptions.delete(uri)`. -/
def removeKey (m : List (String × Bool)) (uri : String) : List (String × Bool) :=
  m.filter fun p => !(p.1 == uri)

/-- The observable events of the subscription subsystem: the two request
handlers, one loop iteration of a driving task that sends a notification,
and a driving task finishing (stop flag observed, notification failure, or
producer error — all of which delete the task's map entry). -/
inductive SubEvent where
  | subscribe (uri : String)
  | unsubscribe (uri : String)
  | taskNotify (uri : String)
  | taskExit (uri : String)
deriving DecidableEq, Repr

/-- One atomic step of the generated subscription code.  `matchFn uri` is the
generated `subscribeMatches` chain: whether some registered subscribable
resource's URI (template) matches the requested URI. -/
def stepSub (matchFn : String → Bool) (st : SubSt) : SubEvent → SubSt
  | .subscribe uri =>
      if hasKey st.tracked uri then st
      else if matchFn uri then
        { tracked := (uri, false) :: st.tracked, tasks := uri :: st.tasks }
      else st
  | .unsubscribe uri => { st with tracked := setStop st.tracked uri }
  | .taskNotify _ => st
  | .taskExit uri =>
      if uri ∈ st.tasks then
        { tracked := removeKey st.tracked uri, tasks := st.tasks.erase uri }
      else st

/-- The state of a freshly created server: nothing tracked, no tasks. -/
def initSub : SubSt :=
  ⟨[], []⟩

/-- The state after an interleaving of subscription events. -/
def runSub (matchFn : String → Bool) (evs : List SubEvent) : SubSt :=
  evs.foldl (stepSub matchFn) initSub

/-- The state invariant of the subscription machine: the live task URIs are
pairwise distinct and coincide with the tracked URIs. -/
def SubInv (st : SubSt) : Prop :=
  st.tasks.Nodup ∧ ∀ uri, uri ∈ st.tasks ↔ hasKey st.tracked uri = true

/-! ## Concrete inputs used by the witnesses and counterexamples -/

/-- The effective name under which one contribution is registered. -/
def contributionName : Contribution → String
  | .tool t => t.name
  | .prompt p => p.name
  | .resource r => r.name

/-- The array output schema of a tool returning `string[]`. -/
def arraySchemaEx : OutputSchema :=
  OutputSchema.mk .array none (some stringSchema) none

/-- A tool returning `string[]`: its synthesized output schema is an array
node. -/
def arrayToolEx : ToolDefinition :=
  { name := "listItems"
    description := "List the items"
    parameters := []
    returnType := "string[]"
    outputSchema := some arraySchemaEx }

/-- The object output schema `{valid: boolean, errors: string[]}` of the
spec's Scenario B. -/
def validationSchemaEx : OutputSchema :=
  OutputSchema.mk .object
    (some [OutputSchemaProperty.mk "valid" .boolean false none none,
           OutputSchemaProperty.mk "errors" .array false (some stringSchema) none])
    none none

/-- A tool with the Scenario B object output schema. -/
def objectToolEx : ToolDefinition :=
  { name := "checkEmail"
    description := "Validate an email address"
    parameters := []
    returnType := "ValidationResult"
    outputSchema := some validationSchemaEx }

/-- An object output schema with an array-typed `content` property — the
shape the generator treats as a protocol `CallToolResult`. -/
def ctSchemaEx : OutputSchema :=
  OutputSchema.mk .object
    (some [OutputSchemaProperty.mk "content" .array false
      (some (OutputSchema.mk .object none none none)) none])
    none none

/-- A tool whose synthesized output schema is the `CallToolResult` shape. -/
def ctToolEx : ToolDefinition :=
  { name := "rawTool"
    description := "Return a raw protocol result"
    parameters := []
    returnType := "CallToolResult"
    outputSchema := some ctSchemaEx }

/-- An exported, documented function whose `@tool` tag picks the custom name
`same`. -/
def fnDup1 : FunctionDecl :=
  { name := some "f"
    isExported := true
    jsDocs := ["/**\n * Does A\n * @tool same\n */"]
    params := []
    returnType := Ty.voidT }

/-- A second exported function whose `@tool` tag picks the same custom name
`same`. -/
def fnDup2 : FunctionDecl :=
  { name := some "g"
    isExported := true
    jsDocs := ["/**\n * Does B\n * @tool same\n */"]
    params := []
    returnType := Ty.voidT }

/-- An exported function with no doc comment block. -/
def fnUndocEx : FunctionDecl :=
  { name := some "helper"
    isExported := true
    jsDocs := []
    params := []
    returnType := Ty.voidT }

/-- An optional string parameter declaration. -/
def optionalParamEx : ParamDecl :=
  { name := "limit"
    ty := Ty.prim .number
    isOptional := true
    hasInitializer := false }

/-- An event interleaving exercising the subscription machine: a duplicate
subscribe, an unsubscribe, a task loop iteration, a resubscribe before the
old task exits, and the task's exit. -/
def subEvsEx : List SubEvent :=
  [SubEvent.subscribe "sys://cwd", SubEvent.subscribe "sys://cwd",
   SubEvent.unsubscribe "sys://cwd", SubEvent.taskNotify "sys://cwd",
   SubEvent.subscribe "sys://cwd", SubEvent.taskExit "sys://cwd",
   SubEvent.subscribe "sys://cwd"]

/-- A doc comment carrying both a resource tag and a prompt tag. -/
def docResourceAndPromptEx : String :=
  "/**\n * Current directory\n * @resource sys://cwd\n * @prompt\n */"

/-- A doc comment carrying a prompt tag only. -/
def docPromptEx : String :=
  "/**\n * Summarize\n * @prompt\n */"

/-- A doc comment with no classification tag. -/
def docPlainEx : String :=
  "/**\n * Add two numbers\n */"

/-- The per-line condition under which the line loop of
`parseJsDocDescription` records a resource URI: the line reaches the
`@resource` branch of the dispatch chain and its tag argument regex
matches. -/
def setsUri (line : String) : Bool :=
  let t := stripStar line
  !strStartsWith t "@param" && strStartsWith t "@resource"
    && (matchTagArg "@resource" t).isSome

/-- The per-line condition under which the line loop of
`parseJsDocDescription` sets the prompt flag: the line reaches the `@prompt`
branch of the dispatch chain. -/
def setsPrompt (line : String) : Bool :=
  let t := stripStar line
  !strStartsWith t "@param" && !strStartsWith t "@resource"
    && !strStartsWith t "@mimeType" && !strStartsWith t "@tool"
    && strStartsWith t "@prompt"

/-! ## Helper lemmas -/

theorem lineStep_uri_isSome (st : JsDocState) (line : String) :
    (lineStep st line).uri.isSome = (st.uri.isSome || setsUri line) := by
  simp only [lineStep, setsUri]
  repeat' split
  all_goals simp_all

theorem lineStep_isPrompt (st : JsDocState) (line : String) :
    (lineStep st line).isPrompt = (st.isPrompt || setsPrompt line) := by
  simp only [lineStep, setsPrompt]
  repeat' split
  all_goals simp_all

theorem foldl_uri_isSome (ls : List String) (st : JsDocState) :
    ((ls.foldl lineStep st).uri).isSome = (st.uri.isSome || ls.any setsUri) := by
  induction ls generalizing st with
  | nil => simp
  | cons l rest ih =>
      simp [List.foldl_cons, ih, lineStep_uri_isSome, Bool.or_assoc]

theorem foldl_isPrompt (ls : List String) (st : JsDocState) :
    ((ls.foldl lineStep st).isPrompt) = (st.isPrompt || ls.any setsPrompt) := by
  induction ls generalizing st with
  | nil => simp
  | cons l rest ih =>
      simp [List.foldl_cons, ih, lineStep_isPrompt, Bool.or_assoc]

theorem hasKey_setStop (m : List (String × Bool)) (u v : String) :
    hasKey (setStop m u) v = hasKey m v := by
  induction m with
  | nil => rfl
  | cons p rest ih =>
      simp only [setStop, List.map_cons, hasKey, List.any_cons] at ih ⊢
      by_cases h : p.1 == u <;> simp_all

theorem hasKey_removeKey (m : List (String × Bool)) (u v : String) :
    hasKey (removeKey m u) v = (hasKey m v && !(v == u)) := by
  induction m with
  | nil => simp [hasKey, removeKey]
  | cons p rest ih =>
      simp only [removeKey, hasKey, List.filter_cons] at ih ⊢
      by_cases hpu : p.1 = u
      · have b1 : (p.1 == u) = true := by simpa using hpu
        by_cases hvu : v = u
        · have b2 : (v == u) = true := by simpa using hvu
          simp [b1, b2, ih]
        · have b2 : (v == u) = false := by simpa using hvu
          have b3 : (p.1 == v) = false := by
            rw [hpu]
            exact beq_eq_false_iff_ne.2 fun hh => hvu hh.symm
          simp [b1, b2, b3, ih]
      · have b1 : (p.1 == u) = false := by simpa using hpu
        by_cases hpv : p.1 = v
        · have b3 : (p.1 == v) = true := by simpa using hpv
          by_cases hvu : v = u
          · exact absurd (hpv.trans hvu) hpu
          · have b2 : (v == u) = false := by simpa using hvu
            simp [b1, b2, b3]
        · have b3 : (p.1 == v) = false := by simpa using hpv
          simp [b1, b3, ih]

theorem subInv_step (matchFn : String → Bool) (st : SubSt) (e : SubEvent)
    (h : SubInv st) : SubInv (stepSub matchFn st e) := by
  obtain ⟨hnd, hiff⟩ := h
  cases e with
  | subscribe uri =>
      by_cases hk : hasKey st.tracked uri = true
      · simpa [stepSub, hk] using ⟨hnd, hiff⟩
      · have hkf : hasKey st.tracked uri = false := by simpa using hk
        by_cases hm : matchFn uri = true
        · have hnotin : uri ∉ st.tasks := fun hmem => hk ((hiff uri).1 hmem)
          have hst : stepSub matchFn st (SubEvent.subscribe uri)
              = { tracked := (uri, false) :: st.tracked, tasks := uri :: st.tasks } := by
            simp [stepSub, hkf, hm]
          rw [hst]
          refine ⟨List.nodup_cons.2 ⟨hnotin, hnd⟩, fun u => ?_⟩
          simp only [List.mem_cons, hasKey, List.any_cons]
          constructor
          · rintro (rfl | hu)
            · simp
            · have := (hiff u).1 hu
              simp only [hasKey] at this
              simp [this]
          · intro hu
            rw [Bool.or_eq_true] at hu
            rcases hu with hu | hu
            · left
              exact (by simpa using hu : uri = u).symm
            · right
              exact (hiff u).2 hu
        · simpa [stepSub, hkf, hm] using ⟨hnd, hiff⟩
  | unsubscribe uri =>
      refine ⟨hnd, fun u => ?_⟩
      simpa [stepSub, hasKey_setStop] using hiff u
  | taskNotify uri => exact ⟨hnd, hiff⟩
  | taskExit uri =>
      by_cases ht : uri ∈ st.tasks
      · have hst : stepSub matchFn st (SubEvent.taskExit uri)
          = { tracked := removeKey st.tracked uri, tasks := st.tasks.erase uri } := by
            simp [stepSub, ht]
        rw [hst]
        refine ⟨hnd.erase uri, fun u => ?_⟩
        simp only [hasKey_removeKey]
        rw [hnd.mem_erase_iff]
        constructor
        · rintro ⟨hne, hu⟩
          have hu2 := (hiff u).1 hu
          have hne2 : (u == uri) = false := by simpa using hne
          simp [hu2, hne2]
        · intro hu
          rw [Bool.and_eq_true] at hu
          obtain ⟨h1, h2⟩ := hu
          refine ⟨?_, (hiff u).2 h1⟩
          intro heq
          subst heq
          simp at h2
      · simpa [stepSub, ht] using ⟨hnd, hiff⟩

theorem subInv_init : SubInv initSub := by
  constructor
  · simp [initSub]
  · intro u; simp [initSub, hasKey]

theorem subInv_run (matchFn : String → Bool) (evs : List SubEvent) :
    SubInv (runSub matchFn evs) := by
  suffices h : ∀ st, SubInv st → SubInv (evs.foldl (stepSub matchFn) st) from
    h initSub subInv_init
  induction evs with
  | nil => intro st h; exact h
  | cons e rest ih =>
      intro st h
      exact ih _ (subInv_step matchFn st e h)

theorem filterMap_name_sublist {α : Type} (f : Contribution → Option α)
    (g : α → String) (hf : ∀ c a, f c = some a → g a = contributionName c)
    (l : List Contribution) :
    ((l.filterMap f).map g).Sublist (l.map contributionName) := by
  induction l with
  | nil => simp
  | cons c rest ih =>
      cases hc : f c with
      | none =>
          simp only [List.filterMap_cons, hc, List.map_cons]
          exact ih.cons _
      | some a =>
          simp only [List.filterMap_cons, hc, List.map_cons, hf c a hc]
          exact ih.cons₂ _

theorem array_node_items_present : ∀ (t : Ty) (s : OutputSchema),
    parseTypeToOutputSchema t = some s → s.type = SchemaType.array →
    s.items.isSome = true
  | Ty.promiseT a, s, h, ht => by
      rw [show parseTypeToOutputSchema (Ty.promiseT a)
          = parseTypeToOutputSchema a from rfl] at h
      exact array_node_items_present a s h ht
  | Ty.arrayT e, s, h, ht => by
      by_cases hp : strStartsWith (getText (Ty.arrayT e)) "Promise<" = true
      · simp only [parseTypeToOutputSchema, hp, if_true] at h
        exact array_node_items_present e s h ht
      · have hpf : strStartsWith (getText (Ty.arrayT e)) "Promise<" = false := by
          simpa using hp
        simp only [parseTypeToOutputSchema, hpf, Bool.false_eq_true, if_false,
          Option.some.injEq] at h
        subst h
        simp [OutputSchema.items]
  | Ty.prim .string, s, h, ht => by
      simp only [parseTypeToOutputSchema, Option.some.injEq] at h
      subst h; simp [OutputSchema.type] at ht
  | Ty.prim .number, s, h, ht => by
      simp only [parseTypeToOutputSchema, Option.some.injEq] at h
      subst h; simp [OutputSchema.type] at ht
  | Ty.prim .boolean, s, h, ht => by
      simp only [parseTypeToOutputSchema, Option.some.injEq] at h
      subst h; simp [OutputSchema.type] at ht
  | Ty.voidT, s, h, _ => by simp [parseTypeToOutputSchema] at h
  | Ty.undefT, s, h, _ => by simp [parseTypeToOutputSchema] at h
  | Ty.objT sym si props, s, h, ht => by
      rcases si with _ | idxTy
      · simp only [parseTypeToOutputSchema] at h
        repeat' split at h
        all_goals cases h <;> simp [OutputSchema.type] at ht
      · simp only [parseTypeToOutputSchema] at h
        cases h
        simp [OutputSchema.type] at ht
  | Ty.otherT text, s, h, ht => by
      simp only [parseTypeToOutputSchema] at h
      split at h
      all_goals cases h <;> simp [stringSchema, OutputSchema.type] at ht

/-! ## Claim theorems -/

/-- C1: for every tool whose synthesized output schema is an Array node, the
emitted registration (see `toolRegistration`) wraps the array schema as the
single field `results` of an object output validator and the emitted handler
wraps the actual array result under that same `results` field in the
structured response payload; for every tool whose output schema is an Object
node, the structured result is emitted unwrapped — either passed through
whole (the `CallToolResult` shape) or placed raw in `structuredContent`;
in neither object subcase does a `results` wrapper appear. -/
theorem array_output_wrapped_object_unwrapped (tool : ToolDefinition)
    (s : OutputSchema) (h : tool.outputSchema = some s) :
    (s.type = SchemaType.array →
      outputSchemaStr tool =
        ",\n      outputSchema: z.object(\x7b results: "
          ++ outputSchemaToZod s 3 ++ " \x7d)"
      ∧ returnStatement tool =
        "return \x7b\n        content: [\n          \x7b\n            type: \"text\",\n            text: JSON.stringify(result, null, 2),\n          \x7d,\n        ],\n        structuredContent: \x7b results: result \x7d,\n      \x7d;")
    ∧ (s.type = SchemaType.object →
      (isCallToolResultSchema tool.outputSchema = true →
        outputSchemaStr tool = ""
        ∧ returnStatement tool = "return result as CallToolResult;")
      ∧ (isCallToolResultSchema tool.outputSchema = false →
        outputSchemaStr tool = ",\n      outputSchema: " ++ outputSchemaToZod s 3
        ∧ returnStatement tool =
          "return \x7b\n        content: [\n          \x7b\n            type: \"text\",\n            text: JSON.stringify(result, null, 2),\n          \x7d,\n        ],\n        structuredContent: result,\n      \x7d;")) := by
  constructor
  · intro htype
    obtain ⟨ty, props, items, vt⟩ := s
    simp only [OutputSchema.type] at htype
    subst htype
    have hct : isCallToolResultSchema tool.outputSchema = false := by
      rw [h]
      rfl
    have hflag : hasOutputSchemaFlag tool = true := by
      unfold hasOutputSchemaFlag
      rw [h]
      rfl
    have harr : isArrayOutput tool = true := by
      unfold isArrayOutput
      rw [h]
      rfl
    refine ⟨?_, ?_⟩
    · simp only [outputSchemaStr, hct, hflag, harr, Bool.false_eq_true, if_false,
        if_true, h]
      simp [show isCallToolResultSchema
        (some (OutputSchema.mk SchemaType.array props items vt)) = false from rfl]
    · simp only [returnStatement, hct, hflag, harr, Bool.false_eq_true, if_false,
        if_true]
  · intro htype
    obtain ⟨ty, props, items, vt⟩ := s
    simp only [OutputSchema.type] at htype
    subst htype
    have hflag : hasOutputSchemaFlag tool = true := by
      unfold hasOutputSchemaFlag
      rw [h]
      rfl
    have harr : isArrayOutput tool = false := by
      unfold isArrayOutput
      rw [h]
      rfl
    refine ⟨fun hct => ?_, fun hct => ?_⟩
    · exact ⟨by simp only [outputSchemaStr, hct, if_true],
        by simp only [returnStatement, hct, if_true]⟩
    · refine ⟨?_, ?_⟩
      · rw [h] at hct
        simp only [outputSchemaStr, hct, hflag, harr, Bool.false_eq_true, if_false,
          if_true, h]
      · simp only [returnStatement, hct, hflag, harr, Bool.false_eq_true, if_false,
          if_true]

/-- C1 witness: the array-output tool `arrayToolEx` gets the `results`
wrapper in its output validator and in its structured payload. -/
theorem array_output_wrapped_object_unwrapped_witness :
    outputSchemaStr arrayToolEx =
      ",\n      outputSchema: z.object(\x7b results: "
        ++ outputSchemaToZod arraySchemaEx 3 ++ " \x7d)"
    ∧ returnStatement arrayToolEx =
      "return \x7b\n        content: [\n          \x7b\n            type: \"text\",\n            text: JSON.stringify(result, null, 2),\n          \x7d,\n        ],\n        structuredContent: \x7b results: result \x7d,\n      \x7d;" :=
  (array_output_wrapped_object_unwrapped arrayToolEx arraySchemaEx rfl).1 rfl

/-- C2 counterexample: the claim fails for an Object output schema containing
an array-typed `content` property — the generator emits no output validator
for `ctToolEx` and its handler passes the result through instead of returning
a textual rendering plus structured content. -/
theorem object_output_validator_counterexample :
    ctSchemaEx.type = SchemaType.object
    ∧ outputSchemaStr ctToolEx = ""
    ∧ returnStatement ctToolEx = "return result as CallToolResult;"
    ∧ returnStatement ctToolEx ≠
      "return \x7b\n        content: [\n          \x7b\n            type: \"text\",\n            text: JSON.stringify(result, null, 2),\n          \x7d,\n        ],\n        structuredContent: result,\n      \x7d;" := by
  refine ⟨rfl, rfl, rfl, ?_⟩
  decide

/-- C2 (amended): for every tool whose synthesized output schema is an Object
node other than the `CallToolResult` shape (no array-typed `content`
property), the emitted registration includes an output validator matching
that object schema, and the emitted handler returns both a textual rendering
of the result and the result itself as structured content. -/
theorem object_output_validator_and_structured (tool : ToolDefinition)
    (s : OutputSchema) (h : tool.outputSchema = some s)
    (hobj : s.type = SchemaType.object)
    (hct : isCallToolResultSchema tool.outputSchema = false) :
    outputSchemaStr tool = ",\n      outputSchema: " ++ outputSchemaToZod s 3
    ∧ returnStatement tool =
      "return \x7b\n        content: [\n          \x7b\n            type: \"text\",\n            text: JSON.stringify(result, null, 2),\n          \x7d,\n        ],\n        structuredContent: result,\n      \x7d;" := by
  obtain ⟨ty, props, items, vt⟩ := s
  simp only [OutputSchema.type] at hobj
  subst hobj
  have hflag : hasOutputSchemaFlag tool = true := by
    unfold hasOutputSchemaFlag
    rw [h]
    rfl
  have harr : isArrayOutput tool = false := by
    unfold isArrayOutput
    rw [h]
    rfl
  refine ⟨?_, ?_⟩
  · rw [h] at hct
    simp only [outputSchemaStr, hct, hflag, harr, Bool.false_eq_true, if_false,
      if_true, h]
  · simp only [returnStatement, hct, hflag, harr, Bool.false_eq_true, if_false,
      if_true]

/-- C2 witness: the Scenario B tool `objectToolEx`, with output schema
`{valid: boolean, errors: string[]}`, gets an object output validator and a
text-plus-raw-structured-content handler. -/
theorem object_output_validator_and_structured_witness :
    outputSchemaStr objectToolEx =
      ",\n      outputSchema: " ++ outputSchemaToZod validationSchemaEx 3
    ∧ returnStatement objectToolEx =
      "return \x7b\n        content: [\n          \x7b\n            type: \"text\",\n            text: JSON.stringify(result, null, 2),\n          \x7d,\n        ],\n        structuredContent: result,\n      \x7d;" :=
  object_output_validator_and_structured objectToolEx validationSchemaEx rfl rfl rfl

/-- C10: for every tool whose synthesized output schema is an Object node
containing a property named `content` of array type (the condition
`isCallToolResultSchema`), the generator emits no output validator for that
tool and the emitted handler returns the function's result passed through
unchanged as the protocol result. -/
theorem calltoolresult_passthrough (tool : ToolDefinition)
    (hct : isCallToolResultSchema tool.outputSchema = true) :
    outputSchemaStr tool = ""
    ∧ returnStatement tool = "return result as CallToolResult;" :=
  ⟨by simp [outputSchemaStr, hct], by simp [returnStatement, hct]⟩

/-- C10 witness: the `CallToolResult`-shaped tool `ctToolEx` is registered
without an output validator and its handler passes the result through. -/
theorem calltoolresult_passthrough_witness :
    outputSchemaStr ctToolEx = ""
    ∧ returnStatement ctToolEx = "return result as CallToolResult;" :=
  calltoolresult_passthrough ctToolEx rfl

/-- C4: if extraction discovers zero tools, zero prompts and zero resources,
`generateMcpServer` raises the fatal error before producing any output
artifact — the result is `Except.error` with an empty artifact trace, and the
output directory is never created. -/
theorem no_definitions_fatal (parsed : ParseResultIR)
    (h : parsed.tools = [] ∧ parsed.prompts = [] ∧ parsed.resources = []) :
    generateMcpServer parsed = Except.error noFunctionsError := by
  obtain ⟨h1, h2, h3⟩ := h
  simp [generateMcpServer, h1, h2, h3]

/-- C4 witness: generation from an empty extraction result is the fatal
error. -/
theorem no_definitions_fatal_witness :
    generateMcpServer ⟨[], [], []⟩ = Except.error noFunctionsError :=
  no_definitions_fatal ⟨[], [], []⟩ ⟨rfl, rfl, rfl⟩

/-- C6: for every extracted parameter, the IR `required` flag is `false` iff
the source parameter is declared optional or carries an initializer. -/
theorem required_iff_optional_or_defaulted (docParams : List (String × String))
    (p : ParamDecl) :
    (mkToolParameter docParams p).required = false
      ↔ (p.isOptional = true ∨ p.hasInitializer = true) := by
  simp only [mkToolParameter]
  cases hp : p.isOptional <;> cases hq : p.hasInitializer <;> simp

/-- C6 witness: a declared-optional parameter comes out not required. -/
theorem required_iff_optional_or_defaulted_witness :
    (mkToolParameter [] optionalParamEx).required = false :=
  (required_iff_optional_or_defaulted [] optionalParamEx).mpr (Or.inl rfl)

/-- C7: every exported function with no leading doc comment block, or whose
accumulated description after tag removal is empty, is excluded from all
three IR collections without raising any error: its contribution is `none`
and the parse result is the same as if the function were absent (the
embedding is a total function, so no error can be raised). -/
theorem undocumented_or_empty_excluded (sourceText : String)
    (fn : FunctionDecl) (rest : List FunctionDecl)
    (h : fn.jsDocs = []
      ∨ (parseJsDocDescription (fn.jsDocs.headD "")).description = "") :
    processFn sourceText fn = none
    ∧ parseTypeScriptFile (fn :: rest) sourceText
        = parseTypeScriptFile rest sourceText := by
  have hnone : processFn sourceText fn = none := by
    obtain ⟨name?, exp, docs, ps, rt⟩ := fn
    rcases name? with _ | name
    · rfl
    · rcases docs with _ | ⟨d, ds⟩
      · rfl
      · rcases h with h | h
        · cases h
        · simp only [List.headD] at h
          simp [processFn, h]
  refine ⟨hnone, ?_⟩
  unfold parseTypeScriptFile contributions
  by_cases he : fn.isExported = true <;>
    simp [List.filter_cons, he, List.filterMap_cons, hnone]

/-- C7 witness: an exported function with no doc comment contributes nothing
and leaves the parse result unchanged. -/
theorem undocumented_or_empty_excluded_witness :
    processFn "" fnUndocEx = none
    ∧ parseTypeScriptFile [fnUndocEx] "" = parseTypeScriptFile [] "" :=
  undocumented_or_empty_excluded "" fnUndocEx [] (Or.inl rfl)

/-- C3: classification of a documented exported function is exclusive and
follows the precedence of `parseJsDocDescription`: a line recording a
resource URI (`setsUri`) makes the function a resource unconditionally;
otherwise a `@prompt` tag line (`setsPrompt`) makes it a prompt; otherwise it
is a tool, with or without an explicit `@tool` tag.  The `kind` discriminant
is a single value, so no function is classified into more than one
collection. -/
theorem classification_precedence (jsDoc : String) :
    ((splitNl jsDoc).any setsUri = true →
      (parseJsDocDescription jsDoc).kind = DocKind.resourceK)
    ∧ ((splitNl jsDoc).any setsUri = false →
        (splitNl jsDoc).any setsPrompt = true →
        (parseJsDocDescription jsDoc).kind = DocKind.promptK)
    ∧ ((splitNl jsDoc).any setsUri = false →
        (splitNl jsDoc).any setsPrompt = false →
        (parseJsDocDescription jsDoc).kind = DocKind.toolK) := by
  have huri : ((splitNl jsDoc).foldl lineStep emptyJsDocState).uri.isSome
      = (splitNl jsDoc).any setsUri := by
    simpa [emptyJsDocState] using foldl_uri_isSome (splitNl jsDoc) emptyJsDocState
  have hpr : ((splitNl jsDoc).foldl lineStep emptyJsDocState).isPrompt
      = (splitNl jsDoc).any setsPrompt := by
    simpa [emptyJsDocState] using foldl_isPrompt (splitNl jsDoc) emptyJsDocState
  refine ⟨?_, ?_, ?_⟩
  · intro hA
    have hs : ((splitNl jsDoc).foldl lineStep emptyJsDocState).uri.isSome = true := by
      rw [huri, hA]
    rcases hu : ((splitNl jsDoc).foldl lineStep emptyJsDocState).uri with _ | u
    · rw [hu] at hs
      simp at hs
    · simp only [parseJsDocDescription, hu, JsDocParseResult.kind]
  · intro hA hB
    have hs : ((splitNl jsDoc).foldl lineStep emptyJsDocState).uri.isSome = false := by
      rw [huri, hA]
    have hp : ((splitNl jsDoc).foldl lineStep emptyJsDocState).isPrompt = true := by
      rw [hpr, hB]
    rcases hu : ((splitNl jsDoc).foldl lineStep emptyJsDocState).uri with _ | u
    · simp only [parseJsDocDescription, hu, hp, if_true, JsDocParseResult.kind]
    · rw [hu] at hs
      simp at hs
  · intro hA hB
    have hs : ((splitNl jsDoc).foldl lineStep emptyJsDocState).uri.isSome = false := by
      rw [huri, hA]
    have hp : ((splitNl jsDoc).foldl lineStep emptyJsDocState).isPrompt = false := by
      rw [hpr, hB]
    rcases hu : ((splitNl jsDoc).foldl lineStep emptyJsDocState).uri with _ | u
    · simp only [parseJsDocDescription, hu, hp, Bool.false_eq_true, if_false,
        JsDocParseResult.kind]
    · rw [hu] at hs
      simp at hs

/-- C3 witness: a doc comment with both `@resource <uri>` and `@prompt` is a
resource; one with only `@prompt` is a prompt; one with no tag is a tool. -/
theorem classification_precedence_witness :
    (parseJsDocDescription docResourceAndPromptEx).kind = DocKind.resourceK
    ∧ (parseJsDocDescription docPromptEx).kind = DocKind.promptK
    ∧ (parseJsDocDescription docPlainEx).kind = DocKind.toolK :=
  ⟨(classification_precedence docResourceAndPromptEx).1 (by decide),
   (classification_precedence docPromptEx).2.1 (by decide) (by decide),
   (classification_precedence docPlainEx).2.2 (by decide) (by decide)⟩

/-- C5: in the generated subscription state machine, for every interleaving
of subscribe/unsubscribe/task events, at most one driving task exists per
resource address (the live task addresses are pairwise distinct), and a
subscribe request for an address that is already tracked is a strict no-op:
it returns without creating a tracking entry or launching a second task. -/
theorem subscription_single_task (matchFn : String → Bool)
    (evs : List SubEvent) :
    (runSub matchFn evs).tasks.Nodup
    ∧ ∀ uri, hasKey (runSub matchFn evs).tracked uri = true →
        stepSub matchFn (runSub matchFn evs) (SubEvent.subscribe uri)
          = runSub matchFn evs := by
  refine ⟨(subInv_run matchFn evs).1, fun uri h => ?_⟩
  simp [stepSub, h]

/-- C5 witness: after a duplicate subscribe, an unsubscribe, a resubscribe
racing the still-draining task, and the task's exit, the tasks are still
distinct and a further subscribe to the tracked address changes nothing. -/
theorem subscription_single_task_witness :
    (runSub (fun _ => true) subEvsEx).tasks.Nodup
    ∧ stepSub (fun _ => true) (runSub (fun _ => true) subEvsEx)
        (SubEvent.subscribe "sys://cwd") = runSub (fun _ => true) subEvsEx :=
  ⟨(subscription_single_task (fun _ => true) subEvsEx).1,
   (subscription_single_task (fun _ => true) subEvsEx).2 "sys://cwd" (by decide)⟩

/-- C8 counterexample: two exported functions whose `@tool` tags pick the
same custom name produce two ToolDefinitions named `same` — the extraction
performs no deduplication, so names are not unique for every input module. -/
theorem duplicate_names_counterexample :
    ((parseTypeScriptFile [fnDup1, fnDup2] "").tools.map ToolDefinition.name)
      = ["same", "same"]
    ∧ ¬ ((parseTypeScriptFile [fnDup1, fnDup2] "").tools.map
        ToolDefinition.name).Nodup := by
  refine ⟨rfl, ?_⟩
  intro hnd
  have hnd2 : (["same", "same"] : List String).Nodup := hnd
  simp at hnd2

/-- C8 (amended): the extraction enforces no uniqueness; each collection's
names are unique provided the effective registration names of the documented
exported functions (custom tag name when given, else function name) are
pairwise distinct.  Duplicates arise exactly from colliding effective
names. -/
theorem names_unique_of_distinct_effective_names (fns : List FunctionDecl)
    (sourceText : String)
    (h : ((contributions fns sourceText).map contributionName).Nodup) :
    ((parseTypeScriptFile fns sourceText).tools.map ToolDefinition.name).Nodup
    ∧ ((parseTypeScriptFile fns sourceText).prompts.map
        PromptDefinition.name).Nodup
    ∧ ((parseTypeScriptFile fns sourceText).resources.map
        ResourceDefinition.name).Nodup := by
  simp only [parseTypeScriptFile]
  refine ⟨?_, ?_, ?_⟩
  · exact List.Nodup.sublist
      (filterMap_name_sublist _ ToolDefinition.name
        (fun c a hc => by cases c <;> simp_all [contributionName]) _) h
  · exact List.Nodup.sublist
      (filterMap_name_sublist _ PromptDefinition.name
        (fun c a hc => by cases c <;> simp_all [contributionName]) _) h
  · exact List.Nodup.sublist
      (filterMap_name_sublist _ ResourceDefinition.name
        (fun c a hc => by cases c <;> simp_all [contributionName]) _) h

/-- C8 witness: a module whose single documented function registers the name
`same` has unique names in all three collections. -/
theorem names_unique_of_distinct_effective_names_witness :
    ((parseTypeScriptFile [fnDup1] "").tools.map ToolDefinition.name).Nodup
    ∧ ((parseTypeScriptFile [fnDup1] "").prompts.map
        PromptDefinition.name).Nodup
    ∧ ((parseTypeScriptFile [fnDup1] "").resources.map
        ResourceDefinition.name).Nodup :=
  names_unique_of_distinct_effective_names [fnDup1] "" (by decide)

/-- C9 counterexample: for the array descriptor `Promise<void>[]` the element
type synthesizes to `None`, but the result is not an Array node with a string
item schema — the text of the array type itself begins with `"Promise<"`, so
the Promise-unwrap pre-step fires first and the whole synthesis yields
`None`. -/
theorem array_promise_element_counterexample :
    parseTypeToOutputSchema (Ty.promiseT Ty.voidT) = none
    ∧ parseTypeToOutputSchema (Ty.arrayT (Ty.promiseT Ty.voidT)) = none
    ∧ parseTypeToOutputSchema (Ty.arrayT (Ty.promiseT Ty.voidT))
        ≠ some (OutputSchema.mk .array none (some stringSchema) none) := by
  refine ⟨rfl, rfl, fun hcontra => ?_⟩
  have himp : (none : Option OutputSchema)
      = some (OutputSchema.mk .array none (some stringSchema) none) := hcontra
  cases himp

/-- C9 (amended): for every array descriptor whose printed text does not
begin with `"Promise<"` (so the Promise-unwrap pre-step does not capture it),
synthesis recurses into the element type and a `None` element schema defaults
to a string item schema; and any Array node synthesis ever returns carries an
item schema — an Array node's items are never absent. -/
theorem array_items_recursed_and_present (e : Ty) (t : Ty) (s : OutputSchema) :
    (strStartsWith (getText (Ty.arrayT e)) "Promise<" = false →
      parseTypeToOutputSchema (Ty.arrayT e)
        = some (OutputSchema.mk .array none
            (some ((parseTypeToOutputSchema e).getD stringSchema)) none))
    ∧ (parseTypeToOutputSchema t = some s → s.type = SchemaType.array →
        s.items.isSome = true) := by
  constructor
  · intro hp
    simp only [parseTypeToOutputSchema, hp, Bool.false_eq_true, if_false]
  · exact array_node_items_present t s

/-- C9 witness: `void[]` synthesizes to an Array node whose item schema
defaulted to the string schema, and that node's items are present. -/
theorem array_items_recursed_and_present_witness :
    parseTypeToOutputSchema (Ty.arrayT Ty.voidT)
      = some (OutputSchema.mk .array none (some stringSchema) none)
    ∧ (OutputSchema.mk .array none (some stringSchema) none).items.isSome
        = true := by
  refine ⟨?_, ?_⟩
  · have h1 := (array_items_recursed_and_present Ty.voidT Ty.voidT
      stringSchema).1 (by decide)
    simpa using h1
  · exact (array_items_recursed_and_present Ty.voidT (Ty.arrayT Ty.voidT)
      (OutputSchema.mk .array none (some stringSchema) none)).2 (by
        have := (array_items_recursed_and_present Ty.voidT Ty.voidT
          stringSchema).1 (by decide)
        simpa using this) rfl

end McpGen
